import Mathlib

/-!
Verification of the core behaviors of the portfolio / bike-rental / pet-shop
Flask application (`src/app.py`, `src/modules/email_utils.py`).

The embedding is shallow:
* Python `str` values are lists of characters (`Str`).
* The SQLite database is a record of tables (lists of rows) plus the
  AUTOINCREMENT counters; SQLite `REAL` columns are modelled as exact
  rationals (IEEE-754 rounding is outside the embedding).
* Each Flask view function becomes a pure function from the request data,
  the session state and the database to a result page plus the new state.
  The `login_required` decorator is handled outside the view bodies (it
  redirects unauthenticated callers before the body runs), so the view
  functions are modelled for callers that passed the guard.
* The werkzeug hash functions and the clock are opaque parameters.
-/

set_option maxRecDepth 8192

namespace PortfolioApp

/-- Python `str` values, modelled as lists of characters. -/
abbrev Str := List Char

/-- Characters removed by Python `str.strip()` (the ASCII whitespace set). -/
def isPySpace (c : Char) : Bool :=
  c == ' ' || c == '\t' || c == '\n' || c == '\r' || c == '\x0b' || c == '\x0c'

/-- Python `s.strip()`: drop leading and trailing whitespace. -/
def pyStrip (s : Str) : Str :=
  ((s.dropWhile isPySpace).reverse.dropWhile isPySpace).reverse

/-- Python `str.lower()` on one character (ASCII range, the only range the
application's data exercises). -/
def pyLowerChar (c : Char) : Char :=
  if 'A' ≤ c ∧ c ≤ 'Z' then Char.ofNat (c.toNat + 32) else c

/-- Python `s.lower()`. -/
def pyLower (s : Str) : Str := s.map pyLowerChar

/-- The decimal digit character for `d` (meaningful for `d < 10`). -/
def digitChar (d : Nat) : Char := Char.ofNat (48 + d)

/-- The value of a decimal digit character, if `c` is one. -/
def digitVal? (c : Char) : Option Nat :=
  if '0' ≤ c ∧ c ≤ '9' then some (c.toNat - 48) else none

/-- Read a string of decimal digit characters. -/
def decDigits? : Str → Option (List Nat)
  | [] => some []
  | c :: cs =>
    match digitVal? c, decDigits? cs with
    | some d, some ds => some (d :: ds)
    | _, _ => none

/-- Value of a big-endian list of decimal digits. -/
def decValue : List Nat → Nat
  | [] => 0
  | d :: ds => d * 10 ^ ds.length + decValue ds

/-- Fuelled decimal printer (the fuel makes the recursion structural;
`natToDec` supplies enough fuel). -/
def natToDecAux : Nat → Nat → Str
  | 0, _ => []
  | fuel + 1, n =>
    if n < 10 then [digitChar n]
    else natToDecAux fuel (n / 10) ++ [digitChar (n % 10)]

/-- Python `str(n)` for a natural number. -/
def natToDec (n : Nat) : Str := natToDecAux (n + 1) n

/-- Python `str(k)` for an integer. -/
def intToStr (k : Int) : Str :=
  if k < 0 then '-' :: natToDec k.natAbs else natToDec k.toNat

/-- Value of a nonempty all-digits string. -/
def decValueNE? (s : Str) : Option Nat :=
  if s = [] then none else (decDigits? s).map decValue

/-- Model of Python `int(s)`: an optional sign followed by a nonempty run of
decimal digits (the only shapes the application produces via `str`). -/
def pyStrToInt? : Str → Option Int
  | [] => none
  | c :: rest =>
    if c = '-' then (decValueNE? rest).map (fun n => -(n : Int))
    else if c = '+' then (decValueNE? rest).map (fun n => (n : Int))
    else (decValueNE? (c :: rest)).map (fun n => (n : Int))

/-- Python `list(map(int, keys))`: `none` models the `ValueError` raised on a
non-numeric key. -/
def pyMapInt : List Str → Option (List Int)
  | [] => some []
  | s :: rest =>
    match pyStrToInt? s, pyMapInt rest with
    | some k, some ks => some (k :: ks)
    | _, _ => none

/-- Boolean membership test (models SQL `id IN (...)` and Python `in`). -/
def memB {α : Type} [DecidableEq α] (a : α) (l : List α) : Bool := decide (a ∈ l)

/-- The session cart: a mapping from product-id-as-string to quantity,
modelled as an association list in insertion order (Python dicts preserve
insertion order and have unique keys). -/
abbrev Cart := List (Str × Nat)

/-- Python `cart.get(key, 0)`. -/
def cartGet (cart : Cart) (k : Str) : Nat :=
  match cart.find? (fun e => e.1 == k) with
  | some e => e.2
  | none => 0

/-!
## Data model

Rows of the SQLite tables the claims touch, and the database state.
`description` / `image_url` columns are carried as plain strings; surrogate
ids of `pet_order_items` are never read by the application and are omitted.
SQLite `REAL` columns are exact rationals here.
-/

/-- Row of `users`. -/
structure User where
  id : Nat
  name : Str
  email : Str
  password_hash : Str
  created_at : Str
deriving DecidableEq

/-- Row of `bikes` (column `type` is called `btype` here; `type` is a Lean
keyword). -/
structure Bike where
  id : Int
  name : Str
  btype : Str
  price_per_day : Rat
  description : Str
  image_url : Str
deriving DecidableEq

/-- Row of `bike_bookings`. -/
structure BikeBooking where
  id : Nat
  bike_id : Int
  customer_name : Str
  email : Str
  phone : Str
  start_date : Str
  end_date : Str
  total_price : Rat
  created_at : Str
deriving DecidableEq

/-- Row of `pet_products`. -/
structure PetProduct where
  id : Int
  name : Str
  category : Str
  price : Rat
  description : Str
  image_url : Str
deriving DecidableEq

/-- Row of `pet_orders`. -/
structure PetOrder where
  id : Nat
  customer_name : Str
  email : Str
  phone : Str
  total_amount : Rat
  created_at : Str
deriving DecidableEq

/-- Row of `pet_order_items` (the AUTOINCREMENT surrogate id is never read
and is omitted). -/
structure PetOrderItem where
  order_id : Nat
  product_name : Str
  quantity : Nat
  price_each : Rat
deriving DecidableEq

/-- The database: the tables the claims touch plus AUTOINCREMENT counters. -/
structure Db where
  users : List User
  bikes : List Bike
  bike_bookings : List BikeBooking
  pet_products : List PetProduct
  pet_orders : List PetOrder
  pet_order_items : List PetOrderItem
  next_user_id : Nat
  next_booking_id : Nat
  next_order_id : Nat
deriving DecidableEq

/-!
## Auth helpers and signup / login (`src/app.py` lines 240-337)
-/

/-- Matches `re.search(r"[A-Z]", ...)` on one character. -/
def isUpperChar (c : Char) : Bool := decide ('A' ≤ c ∧ c ≤ 'Z')

/-- Matches `re.search(r"[0-9]", ...)` on one character. -/
def isDigitCharB (c : Char) : Bool := decide ('0' ≤ c ∧ c ≤ '9')

/-- Matches the character class `[A-Za-z0-9]`. -/
def isAsciiAlnum (c : Char) : Bool :=
  decide (('A' ≤ c ∧ c ≤ 'Z') ∨ ('a' ≤ c ∧ c ≤ 'z') ∨ ('0' ≤ c ∧ c ≤ '9'))

/-- Translation of `is_strong_password` (`src/app.py` lines 240-249): a chain
of early-`False` returns; `re.search(pat, s)` is truthy iff some character of
`s` matches the one-character class `pat`. -/
def is_strong_password (password : Str) : Bool :=
  if password.length < 8 then false
  else if !(password.any isUpperChar) then false
  else if !(password.any isDigitCharB) then false
  else if !(password.any (fun c => !(isAsciiAlnum c))) then false
  else true

def errWeakPassword : Str :=
  "Password must contain at least 1 uppercase letter, 1 number, and 1 special character".data

def errAllFieldsRequired : Str := "All fields are required.".data

def errEmailExists : Str := "An account with this email already exists.".data

def errInvalidLogin : Str := "Invalid email or password.".data

/-- Result page of the `signup` view. -/
inductive SignupResult where
  | renderForm (error : Option Str)
  | redirectSignup (flashMsg : Str)
  | redirectLogin
deriving DecidableEq

/-- Translation of the `signup` view (`src/app.py` lines 265-304).

The source file mis-indents the strength-check branch: at lines 275-279 the
`flash(...)` / `return redirect(url_for("signup"))` sit to the left of the
`if not is_strong_password(password):` header at line 274, which is an
`IndentationError` under CPython (the module does not even import).  This
definition reads those two statements as the evidently intended body of that
`if`; everything else follows the source line by line.  `genHash` stands for
`werkzeug.generate_password_hash`, `now` for
`datetime.now().isoformat(timespec="seconds")`. -/
def signup (db : Db) (genHash : Str → Str) (isPost : Bool)
    (nameF emailF passwordF : Str) (now : Str) : SignupResult × Db :=
  if isPost then
    let name := pyStrip nameF
    let email := pyLower (pyStrip emailF)
    let password := pyStrip passwordF
    if is_strong_password password = false then
      (.redirectSignup errWeakPassword, db)
    else if name = [] ∨ email = [] ∨ password = [] then
      (.renderForm (some errAllFieldsRequired), db)
    else if db.users.any (fun u => u.email == email) then
      (.renderForm (some errEmailExists), db)
    else
      let u : User := ⟨db.next_user_id, name, email, genHash password, now⟩
      (.redirectLogin,
       { db with users := db.users ++ [u], next_user_id := db.next_user_id + 1 })
  else (.renderForm none, db)

/-- Response page of the `login` view. -/
inductive LoginPage where
  | render (error : Option Str)
  | redirect (target : Str)
deriving DecidableEq

/-- Translation of the `login` view (`src/app.py` lines 307-330).  `checkHash`
stands for `werkzeug.check_password_hash`; the second component of the result
is the session's `user_id` after the request (the view writes it only on
success). -/
def login (db : Db) (checkHash : Str → Str → Bool) (sessionUid : Option Nat)
    (isPost : Bool) (emailF passwordF : Str) (nextUrl : Str) :
    LoginPage × Option Nat :=
  if isPost then
    let email := pyLower (pyStrip emailF)
    let password := pyStrip passwordF
    match db.users.find? (fun u => u.email == email) with
    | some row =>
      if checkHash row.password_hash password then (.redirect nextUrl, some row.id)
      else (.render (some errInvalidLogin), sessionUid)
    | none => (.render (some errInvalidLogin), sessionUid)
  else (.render none, sessionUid)

/-!
## Dates and the bike-rental booking flow (`src/app.py` lines 397-501)
-/

/-- Gregorian leap-year rule, as used by `datetime.date`. -/
def isLeapYear (y : Int) : Bool :=
  decide ((y % 4 = 0 ∧ y % 100 ≠ 0) ∨ y % 400 = 0)

/-- Length of a month of the proleptic Gregorian calendar. -/
def daysInMonth (y : Int) (m : Nat) : Nat :=
  if m = 1 then 31
  else if m = 2 then (if isLeapYear y then 29 else 28)
  else if m = 3 then 31
  else if m = 4 then 30
  else if m = 5 then 31
  else if m = 6 then 30
  else if m = 7 then 31
  else if m = 8 then 31
  else if m = 9 then 30
  else if m = 10 then 31
  else if m = 11 then 30
  else if m = 12 then 31
  else 0

/-- A `datetime.date` value. -/
structure PyDate where
  year : Int
  month : Nat
  day : Nat
deriving DecidableEq

/-- Validity as required by the `datetime.date` constructor
(`MINYEAR = 1`, `MAXYEAR = 9999`). -/
def isValidDate (y : Int) (m d : Nat) : Bool :=
  decide (1 ≤ y ∧ y ≤ 9999 ∧ 1 ≤ m ∧ m ≤ 12 ∧ 1 ≤ d ∧ d ≤ daysInMonth y m)

/-- Day number of a civil date (Hinnant's `days_from_civil`); differences of
`toOrdinal` values equal differences of `date.toordinal()` values, which is
what `(end_date - start_date).days` computes. -/
def toOrdinal (dt : PyDate) : Int :=
  let y : Int := if dt.month ≤ 2 then dt.year - 1 else dt.year
  let era : Int := y / 400
  let yoe : Int := y - era * 400
  let mp : Int := if dt.month > 2 then (dt.month : Int) - 3 else (dt.month : Int) + 9
  let doy : Int := (153 * mp + 2) / 5 + (dt.day : Int) - 1
  let doe : Int := yoe * 365 + yoe / 4 - yoe / 100 + doy
  era * 146097 + doe - 719468

/-- Model of `datetime.date.fromisoformat` on the canonical `YYYY-MM-DD`
shape (`none` models the `ValueError` the view catches). -/
def date_fromisoformat? (s : Str) : Option PyDate :=
  match s with
  | [y1, y2, y3, y4, h1, m1, m2, h2, d1, d2] =>
    if h1 = '-' ∧ h2 = '-' then
      match digitVal? y1, digitVal? y2, digitVal? y3, digitVal? y4,
            digitVal? m1, digitVal? m2, digitVal? d1, digitVal? d2 with
      | some a, some b, some c, some d, some e, some f, some g, some h =>
        let yr : Int := ((1000 * a + 100 * b + 10 * c + d : Nat) : Int)
        let mo : Nat := 10 * e + f
        let dy : Nat := 10 * g + h
        if isValidDate yr mo dy then some ⟨yr, mo, dy⟩ else none
      | _, _, _, _, _, _, _, _ => none
    else none
  | _ => none

def errBikeAllRequired : Str := "All fields are required.".data

def errEndBeforeStart : Str := "End date must be on or after start date.".data

def errInvalidDates : Str := "Please enter valid dates (YYYY-MM-DD).".data

/-- Response page of the `bike_detail` view. -/
inductive BikeDetailPage where
  | notFound
  | renderForm (error : Option Str)
  | successRedirect (booking_id : Nat)
deriving DecidableEq

/-- Translation of the `bike_detail` view (`src/app.py` lines 397-456).  The
`try` block's only `ValueError` sources are the two `fromisoformat` calls;
the booking INSERT plus commit is modelled as appending the row. -/
def bike_detail (db : Db) (bike_id : Int) (isPost : Bool)
    (nameF emailF phoneF startF endF : Str) (now : Str) :
    BikeDetailPage × Db :=
  match db.bikes.find? (fun b => b.id == bike_id) with
  | none => (.notFound, db)
  | some bike =>
    if isPost then
      let customer_name := pyStrip nameF
      let email := pyStrip emailF
      let phone := pyStrip phoneF
      let start_date_str := pyStrip startF
      let end_date_str := pyStrip endF
      if customer_name = [] ∨ email = [] ∨ phone = [] ∨
          start_date_str = [] ∨ end_date_str = [] then
        (.renderForm (some errBikeAllRequired), db)
      else
        match date_fromisoformat? start_date_str, date_fromisoformat? end_date_str with
        | some start_date, some end_date =>
          let days : Int := (toOrdinal end_date - toOrdinal start_date) + 1
          if days ≤ 0 then (.renderForm (some errEndBeforeStart), db)
          else
            let total_price : Rat := (days : Rat) * bike.price_per_day
            let booking : BikeBooking :=
              ⟨db.next_booking_id, bike_id, customer_name, email, phone,
               start_date_str, end_date_str, total_price, now⟩
            (.successRedirect db.next_booking_id,
             { db with bike_bookings := db.bike_bookings ++ [booking],
                       next_booking_id := db.next_booking_id + 1 })
        | _, _ => (.renderForm (some errInvalidDates), db)
    else (.renderForm none, db)

/-!
## Email sink (`src/modules/email_utils.py`) and the booking-success view
-/

/-- The two environment variables `send_email` reads. -/
structure EmailEnv where
  email_user : Option Str
  email_password : Option Str
deriving DecidableEq

/-- Python truthiness of an optional string (`not EMAIL_USER`). -/
def strFalsy (s : Option Str) : Bool :=
  match s with
  | none => true
  | some t => t == []

def errEmailEnvMissing : Str :=
  "EMAIL_USER or EMAIL_PASSWORD not set in environment".data

def errSmtp : Str := "EMAIL ERROR".data

/-- Translation of `send_email` (`src/modules/email_utils.py` lines 11-29):
raises `RuntimeError` when either credential is unset or empty, otherwise
attempts SMTP delivery, re-raising any failure (`smtpOk` abstracts the SMTP
session).  The `.ok` payload records the delivered `(to, subject)`. -/
def send_email (env : EmailEnv) (smtpOk : Bool) (to_email subject : Str) :
    Except Str (Str × Str) :=
  if strFalsy env.email_user || strFalsy env.email_password then
    .error errEmailEnvMissing
  else if smtpOk then .ok (to_email, subject)
  else .error errSmtp

def receiptSubject : Str := "Your Bike Rental Receipt".data

/-- Response page of the `bike_booking_success` view. -/
inductive BookingSuccessPage where
  | notFound
  | renderSuccess (booking : BikeBooking) (bike : Bike)
deriving DecidableEq

/-- Observable outcome of one `bike_booking_success` request: the page, the
`send_email` calls attempted during the request (as `(to, subject)` pairs),
and the exception swallowed by the `except` clause, if any. -/
structure BookingSuccessOutcome where
  page : BookingSuccessPage
  attempts : List (Str × Str)
  swallowedError : Option Str
deriving DecidableEq

/-- Translation of the `bike_booking_success` view (`src/app.py` lines
459-501).  The SQL joins `bike_bookings` with `bikes`, so a row exists only
when both the booking and its bike do; the receipt body interpolates booking
fields into constant markup and is not modelled beyond its recipient and
subject.  The `try/except` around `send_email` is the `match` on its
result. -/
def bike_booking_success (db : Db) (booking_id : Nat)
    (env : EmailEnv) (smtpOk : Bool) : BookingSuccessOutcome :=
  match db.bike_bookings.find? (fun bk => bk.id == booking_id) with
  | none => ⟨.notFound, [], none⟩
  | some bk =>
    match db.bikes.find? (fun b => b.id == bk.bike_id) with
    | none => ⟨.notFound, [], none⟩
    | some b =>
      match send_email env smtpOk bk.email receiptSubject with
      | .ok _ => ⟨.renderSuccess bk b, [(bk.email, receiptSubject)], none⟩
      | .error e => ⟨.renderSuccess bk b, [(bk.email, receiptSubject)], some e⟩

/-!
## Pet-shop cart and checkout (`src/app.py` lines 507-688)
-/

/-- One entry of the `products` list built by `pet_cart`. -/
structure CartLine where
  id : Int
  name : Str
  category : Str
  price : Rat
  quantity : Nat
  subtotal : Rat
deriving DecidableEq

/-- What `pet_cart` computes before rendering: the materialised lines, the
running total, and whether the `SELECT ... WHERE id IN (...)` query was
issued at all (the source guards it with `if product_ids:`). -/
structure PetCartView where
  products : List CartLine
  total_amount : Rat
  queried : Bool
deriving DecidableEq

/-- Translation of the materialisation part of the `pet_cart` view
(`src/app.py` lines 545-574): parse the cart keys with `int` (`none` models
the uncaught `ValueError`), and only when the id list is nonempty join them
against `pet_products`, accumulating one line and the running subtotal per
returned row.  Rows come back in table order; cart entries matching no row
are silently skipped. -/
def pet_cart (db : Db) (cart : Cart) : Option PetCartView :=
  match pyMapInt (cart.map Prod.fst) with
  | none => none
  | some product_ids =>
    if product_ids = [] then some ⟨[], 0, false⟩
    else
      let rows := db.pet_products.filter (fun r => memB r.id product_ids)
      let pr := rows.foldl
        (fun (acc : List CartLine × Rat) row =>
          let qty := cartGet cart (intToStr row.id)
          let subtotal := (qty : Rat) * row.price
          (acc.1 ++ [⟨row.id, row.name, row.category, row.price, qty, subtotal⟩],
           acc.2 + subtotal))
        ([], 0)
      some ⟨pr.1, pr.2, true⟩

/-- One entry of the `products` list built by `pet_checkout`. -/
structure CheckoutLine where
  id : Int
  name : Str
  quantity : Nat
  price : Rat
deriving DecidableEq

def errCheckoutRequired : Str := "Name, email, and mobile number are required.".data

/-- Response page of the `pet_checkout` view. -/
inductive CheckoutResult where
  | emptyCartRedirect
  | renderForm (error : Option Str)
  | success (order_id : Nat)
  | serverError
deriving DecidableEq

/-- Observable outcome of one `pet_checkout` request. -/
structure CheckoutOutcome where
  result : CheckoutResult
  db : Db
  cart : Cart
  emailAttempted : Bool
deriving DecidableEq

/-- Translation of the `pet_checkout` view (`src/app.py` lines 595-688).

The empty-cart guard runs before anything else.  The cart keys are parsed
with `int` (`none` models the uncaught `ValueError`), the catalog join and
the products/total loop run before the method check, exactly as in the
source.  The order INSERT, the per-product item INSERTs and the single
`conn.commit()` at line 650 form one SQLite transaction: `persistOk` models
that transaction, and a persistence failure anywhere before the commit
returns leaves the database unchanged (rollback when the connection closes),
surfacing as an unhandled exception (`serverError`).  `save_cart({})` runs
only after the commit; the order confirmation email is attempted afterwards
and its failure is swallowed (`emailOk` abstracts the sink). -/
def pet_checkout (db : Db) (cart : Cart) (isPost : Bool)
    (nameF emailF phoneF : Str) (now : Str) (persistOk : Bool) (emailOk : Bool) :
    CheckoutOutcome :=
  if cart = [] then ⟨.emptyCartRedirect, db, cart, false⟩
  else
    match pyMapInt (cart.map Prod.fst) with
    | none => ⟨.serverError, db, cart, false⟩
    | some product_ids =>
      let rows := db.pet_products.filter (fun r => memB r.id product_ids)
      let pr := rows.foldl
        (fun (acc : List CheckoutLine × Rat) row =>
          let qty := cartGet cart (intToStr row.id)
          let subtotal := (qty : Rat) * row.price
          (acc.1 ++ [⟨row.id, row.name, qty, row.price⟩], acc.2 + subtotal))
        ([], 0)
      let products := pr.1
      let total_amount := pr.2
      if isPost then
        let name := pyStrip nameF
        let email := pyStrip emailF
        let phone := pyStrip phoneF
        if name = [] ∨ email = [] ∨ phone = [] then
          ⟨.renderForm (some errCheckoutRequired), db, cart, false⟩
        else if persistOk then
          let order_id := db.next_order_id
          let order : PetOrder := ⟨order_id, name, email, phone, total_amount, now⟩
          let items := products.map
            (fun p => (⟨order_id, p.name, p.quantity, p.price⟩ : PetOrderItem))
          ⟨.success order_id,
           { db with pet_orders := db.pet_orders ++ [order],
                     pet_order_items := db.pet_order_items ++ items,
                     next_order_id := order_id + 1 },
           [], true⟩
        else ⟨.serverError, db, cart, false⟩
      else ⟨.renderForm none, db, cart, false⟩

/-!
## Structured forms of the materialisation, and concrete fixtures

`matchedRows`, `checkoutLines`, `cartLines` and `rowsTotal` are the
closed forms the single-pass loops of `pet_cart` / `pet_checkout` compute;
`pet_checkout_eq` / `pet_cart_eq` below prove the handlers equal to these
forms.  The fixtures instantiate the spec's worked examples.
-/

/-- Catalog rows returned by `SELECT * FROM pet_products WHERE id IN (ids)`,
in table order. -/
def matchedRows (db : Db) (ids : List Int) : List PetProduct :=
  db.pet_products.filter (fun r => memB r.id ids)

/-- The `products` list built by the `pet_checkout` loop. -/
def checkoutLines (cart : Cart) (rows : List PetProduct) : List CheckoutLine :=
  rows.map (fun row => ⟨row.id, row.name, cartGet cart (intToStr row.id), row.price⟩)

/-- The `products` list built by the `pet_cart` loop. -/
def cartLines (cart : Cart) (rows : List PetProduct) : List CartLine :=
  rows.map (fun row =>
    ⟨row.id, row.name, row.category, row.price, cartGet cart (intToStr row.id),
     (cartGet cart (intToStr row.id) : Rat) * row.price⟩)

/-- The `total_amount` accumulated by either loop. -/
def rowsTotal (cart : Cart) (rows : List PetProduct) : Rat :=
  (rows.map (fun row => (cartGet cart (intToStr row.id) : Rat) * row.price)).sum

/-- Atomicity of checkout: either nothing changed and the request did not
succeed, or the order row and all of its item rows were appended together,
every item referencing that order, and the cart was cleared. -/
def CheckoutAtomic (db : Db) (cart : Cart) (o : CheckoutOutcome) : Prop :=
  (o.db = db ∧ o.cart = cart ∧ ∀ oid, o.result ≠ .success oid) ∨
  (∃ oid order items,
    o.result = .success oid ∧
    PetOrder.id order = oid ∧
    o.db.pet_orders = db.pet_orders ++ [order] ∧
    o.db.pet_order_items = db.pet_order_items ++ items ∧
    (∀ it ∈ items, it.order_id = oid) ∧
    o.cart = [])

/-- Pet catalog fixture: the two products of the spec's checkout example,
priced 100 and 50. -/
def prodFood : PetProduct :=
  ⟨1, "Premium Dog Food".data, "Food".data, 100, [], []⟩

def prodBowl : PetProduct :=
  ⟨2, "Pet Water Bowl".data, "Accessories".data, 50, [], []⟩

def dbPets : Db := ⟨[], [], [], [prodFood, prodBowl], [], [], 1, 1, 1⟩

/-- Cart fixture for the checkout example: product 1 twice, product 2 once. -/
def cartPets : Cart := [("1".data, 2), ("2".data, 1)]

/-- Bike fixture priced 900 per day (the spec's booking example). -/
def bikeMT : Bike := ⟨1, "Yamaha MT-15".data, "Sport".data, 900, [], []⟩

def dbBikes : Db := ⟨[], [bikeMT], [], [], [], [], 1, 1, 1⟩

/-- A persisted booking for the `bike_booking_success` fixture. -/
def bookingFix : BikeBooking :=
  ⟨1, 1, "Ada".data, "ada@example.com".data, "99".data,
   "2024-01-01".data, "2024-01-03".data, 2700, []⟩

def dbBooked : Db :=
  ⟨[], [bikeMT], [bookingFix], [], [], [], 1, 2, 1⟩

/-- A registered user for the login / signup fixtures (stored email is
lower-case, as `signup` writes it). -/
def userAda : User :=
  ⟨1, "Ada".data, "ada@example.com".data, "hash1".data, []⟩

def dbUsers : Db := ⟨[userAda], [], [], [], [], [], 2, 1, 1⟩

def emptyDb : Db := ⟨[], [], [], [], [], [], 1, 1, 1⟩

/-!
## Lemmas

Helper lemmas about the string model, counting, and the materialisation
loops, followed by the claim theorems.
-/

lemma digitVal?_digitChar {d : Nat} (hd : d < 10) :
    digitVal? (digitChar d) = some d := by
  interval_cases d <;> decide

lemma digitChar_ne_minus {d : Nat} (hd : d < 10) : digitChar d ≠ '-' := by
  interval_cases d <;> decide

lemma digitChar_ne_plus {d : Nat} (hd : d < 10) : digitChar d ≠ '+' := by
  interval_cases d <;> decide

lemma decDigits?_append {s t : Str} {ds es : List Nat}
    (hs : decDigits? s = some ds) (ht : decDigits? t = some es) :
    decDigits? (s ++ t) = some (ds ++ es) := by
  induction s generalizing ds with
  | nil =>
    simp only [decDigits?] at hs
    cases hs
    simpa using ht
  | cons c cs ih =>
    simp only [decDigits?] at hs ⊢
    cases hc : digitVal? c with
    | none => rw [hc] at hs; exact absurd hs (by simp)
    | some d =>
      rw [hc] at hs
      cases hcs : decDigits? cs with
      | none => rw [hcs] at hs; exact absurd hs (by simp)
      | some ds' =>
        rw [hcs] at hs
        cases hs
        simp [List.append_eq, ih hcs]

lemma decValue_append_singleton (ds : List Nat) (d : Nat) :
    decValue (ds ++ [d]) = 10 * decValue ds + d := by
  induction ds with
  | nil => simp [decValue]
  | cons e es ih =>
    simp only [List.cons_append, decValue, List.append_eq, List.length_append,
      List.length_cons, List.length_nil, ih]
    ring

lemma natToDecAux_spec :
    ∀ fuel n, n < fuel →
      ∃ ds, ds ≠ [] ∧ decDigits? (natToDecAux fuel n) = some ds ∧ decValue ds = n := by
  intro fuel
  induction fuel with
  | zero => intro n hn; omega
  | succ f ih =>
    intro n hn
    by_cases h10 : n < 10
    · refine ⟨[n], by simp, ?_, by simp [decValue]⟩
      simp [natToDecAux, h10, decDigits?, digitVal?_digitChar h10]
    · have hdiv : n / 10 < f := by omega
      obtain ⟨ds, hne, hds, hval⟩ := ih (n / 10) hdiv
      refine ⟨ds ++ [n % 10], by simp, ?_, ?_⟩
      · rw [natToDecAux]
        simp only [if_neg h10]
        refine decDigits?_append hds ?_
        simp [decDigits?, digitVal?_digitChar (Nat.mod_lt n (by omega))]
      · rw [decValue_append_singleton, hval]
        omega

lemma natToDecAux_head :
    ∀ fuel n, n < fuel →
      ∃ d t, d < 10 ∧ natToDecAux fuel n = digitChar d :: t := by
  intro fuel
  induction fuel with
  | zero => intro n hn; omega
  | succ f ih =>
    intro n hn
    by_cases h10 : n < 10
    · exact ⟨n, [], h10, by simp [natToDecAux, h10]⟩
    · have hdiv : n / 10 < f := by omega
      obtain ⟨d, t, hd, ht⟩ := ih (n / 10) hdiv
      refine ⟨d, t ++ [digitChar (n % 10)], hd, ?_⟩
      rw [natToDecAux]
      simp [if_neg h10, ht]

lemma decValueNE?_natToDec (n : Nat) : decValueNE? (natToDec n) = some n := by
  obtain ⟨ds, hne, hds, hval⟩ := natToDecAux_spec (n + 1) n (by omega)
  obtain ⟨d, t, hd, ht⟩ := natToDecAux_head (n + 1) n (by omega)
  show decValueNE? (natToDecAux (n + 1) n) = some n
  have hnil : natToDecAux (n + 1) n ≠ [] := by rw [ht]; simp
  simp only [decValueNE?, if_neg hnil, hds]
  simp [hval]

lemma pyStrToInt?_natToDec (n : Nat) : pyStrToInt? (natToDec n) = some (n : Int) := by
  obtain ⟨d, t, hd, ht⟩ := natToDecAux_head (n + 1) n (by omega)
  have hne : decValueNE? (digitChar d :: t) = some n := by
    rw [← ht]; exact decValueNE?_natToDec n
  show pyStrToInt? (natToDecAux (n + 1) n) = some (n : Int)
  rw [ht]
  simp only [pyStrToInt?, if_neg (digitChar_ne_minus hd), if_neg (digitChar_ne_plus hd),
    hne]
  simp

lemma pyStrToInt?_intToStr (k : Int) : pyStrToInt? (intToStr k) = some k := by
  by_cases hk : k < 0
  · rw [intToStr, if_pos hk, pyStrToInt?, if_pos rfl, decValueNE?_natToDec]
    show some (-(k.natAbs : Int)) = some k
    congr 1
    omega
  · rw [intToStr, if_neg hk, pyStrToInt?_natToDec]
    congr 1
    omega

lemma intToStr_injective : Function.Injective intToStr := by
  intro a b h
  have ha := pyStrToInt?_intToStr a
  rw [h, pyStrToInt?_intToStr b] at ha
  exact (Option.some.inj ha).symm

lemma pyMapInt_canonical :
    ∀ keys : List Str, (∀ s ∈ keys, ∃ k : Int, s = intToStr k) →
      ∃ ks : List Int, pyMapInt keys = some ks ∧ keys = ks.map intToStr := by
  intro keys
  induction keys with
  | nil => exact fun _ => ⟨[], rfl, rfl⟩
  | cons s rest ih =>
    intro h
    obtain ⟨k, hk⟩ := h s (by simp)
    obtain ⟨ks, hks, hmap⟩ := ih (fun x hx => h x (by simp [hx]))
    refine ⟨k :: ks, ?_, by simp [hk, hmap]⟩
    rw [pyMapInt, hk, pyStrToInt?_intToStr, hks]

lemma memB_iff {α : Type} [DecidableEq α] (a : α) (l : List α) :
    memB a l = true ↔ a ∈ l := by simp [memB]

lemma countP_mem_cons_of_not_mem {α : Type} [DecidableEq α]
    (Bs : List α) (a : α) (As : List α) (hb : Bs.Nodup) (ha : a ∉ As) :
    Bs.countP (fun b => memB b (a :: As))
      = Bs.countP (fun b => memB b As) + (if a ∈ Bs then 1 else 0) := by
  induction Bs with
  | nil => simp
  | cons b Bs ih =>
    obtain ⟨hbB, hBs⟩ := List.nodup_cons.mp hb
    rw [List.countP_cons, List.countP_cons, ih hBs]
    by_cases hba : b = a
    · subst hba
      have h1 : memB b (b :: As) = true := by simp [memB]
      have h2 : memB b As = false := by simp [memB, ha]
      simp [h1, h2, hbB]
    · have h1 : memB b (a :: As) = memB b As := by
        simp only [memB, List.mem_cons]
        by_cases hbi : b ∈ As <;> simp [hbi, hba]
      rw [h1]
      have h2 : a ∈ b :: Bs ↔ a ∈ Bs := by
        constructor
        · intro h
          rcases List.mem_cons.mp h with h | h
          · exact absurd h.symm hba
          · exact h
        · exact fun h => List.mem_cons_of_mem b h
      by_cases hab : a ∈ Bs
      · rw [if_pos hab, if_pos (h2.mpr hab)]
        omega
      · rw [if_neg hab, if_neg (fun hc => hab (h2.mp hc))]
        omega

lemma countP_mem_comm {α : Type} [DecidableEq α]
    (As Bs : List α) (ha : As.Nodup) (hb : Bs.Nodup) :
    As.countP (fun a => memB a Bs) = Bs.countP (fun b => memB b As) := by
  induction As with
  | nil => simp [memB]
  | cons a As ih =>
    obtain ⟨haA, hAs⟩ := List.nodup_cons.mp ha
    rw [List.countP_cons, ih hAs, countP_mem_cons_of_not_mem Bs a As hb haA]
    by_cases hmem : a ∈ Bs <;> simp [memB, hmem]

lemma cartGet_eq_of_mem (cart : Cart) (e : Str × Nat) (he : e ∈ cart)
    (hnd : (cart.map Prod.fst).Nodup) : cartGet cart e.1 = e.2 := by
  induction cart with
  | nil => cases he
  | cons x xs ih =>
    rw [List.map_cons, List.nodup_cons] at hnd
    rcases List.mem_cons.mp he with rfl | hxs
    · simp [cartGet, List.find?]
    · have hne : x.1 ≠ e.1 := by
        intro hc
        exact hnd.1 (hc ▸ List.mem_map_of_mem Prod.fst hxs)
      have : (x.1 == e.1) = false := by simp [hne]
      simp only [cartGet, List.find?, this]
      exact ih hxs hnd.2

/-- Shape of the materialisation loops in `pet_cart` / `pet_checkout`: one
pass appending a row-derived record and accumulating the running total. -/
lemma foldl_build {α β : Type} (f : α → β) (g : α → Rat) :
    ∀ (rows : List α) (acc : List β × Rat),
      rows.foldl (fun acc row => (acc.1 ++ [f row], acc.2 + g row)) acc
        = (acc.1 ++ rows.map f, acc.2 + (rows.map g).sum) := by
  intro rows
  induction rows with
  | nil => intro acc; simp
  | cons r rs ih =>
    intro acc
    rw [List.foldl_cons, ih]
    simp [add_assoc]

lemma mem_map_right_of_forall_eq {ks : List Int} {keys : List Str}
    (hmap : keys = ks.map intToStr) {k : Int} (hk : intToStr k ∈ keys) : k ∈ ks := by
  subst hmap
  obtain ⟨k', hk', heq⟩ := List.mem_map.mp hk
  exact intToStr_injective heq ▸ hk'

lemma countP_congr_eq {α : Type} {p q : α → Bool} :
    ∀ l : List α, (∀ a ∈ l, p a = q a) → l.countP p = l.countP q := by
  intro l
  induction l with
  | nil => intro _; rfl
  | cons a l ih =>
    intro h
    rw [List.countP_cons, List.countP_cons, h a (by simp),
      ih (fun x hx => h x (by simp [hx]))]

/-- The checkout view, with the single-pass loop replaced by its closed
form. -/
lemma pet_checkout_eq (db : Db) (cart : Cart) (isPost : Bool)
    (nameF emailF phoneF now : Str) (persistOk emailOk : Bool) :
    pet_checkout db cart isPost nameF emailF phoneF now persistOk emailOk =
      if cart = [] then ⟨.emptyCartRedirect, db, cart, false⟩
      else
        match pyMapInt (cart.map Prod.fst) with
        | none => ⟨.serverError, db, cart, false⟩
        | some ids =>
          if isPost then
            if pyStrip nameF = [] ∨ pyStrip emailF = [] ∨ pyStrip phoneF = [] then
              ⟨.renderForm (some errCheckoutRequired), db, cart, false⟩
            else if persistOk then
              ⟨.success db.next_order_id,
               { db with
                   pet_orders := db.pet_orders ++
                     [⟨db.next_order_id, pyStrip nameF, pyStrip emailF, pyStrip phoneF,
                       rowsTotal cart (matchedRows db ids), now⟩],
                   pet_order_items := db.pet_order_items ++
                     (checkoutLines cart (matchedRows db ids)).map
                       (fun p => (⟨db.next_order_id, p.name, p.quantity, p.price⟩ : PetOrderItem)),
                   next_order_id := db.next_order_id + 1 },
               [], true⟩
            else ⟨.serverError, db, cart, false⟩
          else ⟨.renderForm none, db, cart, false⟩ := by
  unfold pet_checkout matchedRows checkoutLines rowsTotal
  by_cases hc : cart = []
  · simp [hc]
  · simp only [if_neg hc]
    cases hm : pyMapInt (cart.map Prod.fst) with
    | none => rfl
    | some ids =>
      simp only [foldl_build, List.nil_append, zero_add]

/-- The cart view, with the single-pass loop replaced by its closed form. -/
lemma pet_cart_eq (db : Db) (cart : Cart) :
    pet_cart db cart =
      match pyMapInt (cart.map Prod.fst) with
      | none => none
      | some ids =>
        if ids = [] then some ⟨[], 0, false⟩
        else some ⟨cartLines cart (matchedRows db ids),
                   rowsTotal cart (matchedRows db ids), true⟩ := by
  unfold pet_cart matchedRows cartLines rowsTotal
  cases hm : pyMapInt (cart.map Prod.fst) with
  | none => rfl
  | some ids =>
    by_cases hids : ids = []
    · simp [hids]
    · simp only [if_neg hids, foldl_build, List.nil_append, zero_add]

lemma pet_checkout_eq_some {db : Db} {cart : Cart} {ids : List Int}
    (hm : pyMapInt (cart.map Prod.fst) = some ids) (hc : cart ≠ [])
    (isPost : Bool) (nameF emailF phoneF now : Str) (persistOk emailOk : Bool) :
    pet_checkout db cart isPost nameF emailF phoneF now persistOk emailOk =
      if isPost then
        if pyStrip nameF = [] ∨ pyStrip emailF = [] ∨ pyStrip phoneF = [] then
          ⟨.renderForm (some errCheckoutRequired), db, cart, false⟩
        else if persistOk then
          ⟨.success db.next_order_id,
           { db with
               pet_orders := db.pet_orders ++
                 [⟨db.next_order_id, pyStrip nameF, pyStrip emailF, pyStrip phoneF,
                   rowsTotal cart (matchedRows db ids), now⟩],
               pet_order_items := db.pet_order_items ++
                 (checkoutLines cart (matchedRows db ids)).map
                   (fun p => (⟨db.next_order_id, p.name, p.quantity, p.price⟩ : PetOrderItem)),
               next_order_id := db.next_order_id + 1 },
           [], true⟩
        else ⟨.serverError, db, cart, false⟩
      else ⟨.renderForm none, db, cart, false⟩ := by
  rw [pet_checkout_eq, if_neg hc, hm]

lemma pet_checkout_eq_none {db : Db} {cart : Cart}
    (hm : pyMapInt (cart.map Prod.fst) = none) (hc : cart ≠ [])
    (isPost : Bool) (nameF emailF phoneF now : Str) (persistOk emailOk : Bool) :
    pet_checkout db cart isPost nameF emailF phoneF now persistOk emailOk
      = ⟨.serverError, db, cart, false⟩ := by
  rw [pet_checkout_eq, if_neg hc, hm]

lemma pet_cart_eq_some {db : Db} {cart : Cart} {ids : List Int}
    (hm : pyMapInt (cart.map Prod.fst) = some ids) :
    pet_cart db cart =
      if ids = [] then some ⟨[], 0, false⟩
      else some ⟨cartLines cart (matchedRows db ids),
                 rowsTotal cart (matchedRows db ids), true⟩ := by
  rw [pet_cart_eq, hm]

/-- The booking-success view when the join finds the booking and its bike. -/
lemma bike_booking_success_found
    (db : Db) (booking_id : Nat) (env : EmailEnv) (smtpOk : Bool)
    {bk : BikeBooking}
    (hbk : db.bike_bookings.find? (fun r => r.id == booking_id) = some bk)
    {b : Bike} (hb : db.bikes.find? (fun r => r.id == bk.bike_id) = some b) :
    bike_booking_success db booking_id env smtpOk =
      match send_email env smtpOk bk.email receiptSubject with
      | .ok _ => ⟨.renderSuccess bk b, [(bk.email, receiptSubject)], none⟩
      | .error e => ⟨.renderSuccess bk b, [(bk.email, receiptSubject)], some e⟩ := by
  unfold bike_booking_success
  split
  · next heq => rw [hbk] at heq; exact Option.noConfusion heq
  · next bk' heq =>
    rw [hbk] at heq
    injection heq with heq'
    subst heq'
    split
    · next heq2 => rw [hb] at heq2; exact Option.noConfusion heq2
    · next b' heq2 =>
      rw [hb] at heq2
      injection heq2 with heq2'
      subst heq2'
      rfl

lemma mem_matchedRows {db : Db} {ids : List Int} {r : PetProduct} :
    r ∈ matchedRows db ids ↔ r ∈ db.pet_products ∧ r.id ∈ ids := by
  simp [matchedRows, List.mem_filter, memB]

lemma matchedRows_forward {db : Db} {cart : Cart} {ks : List Int}
    (hmap : cart.map Prod.fst = ks.map intToStr)
    {e : Str × Nat} (he : e ∈ cart) {r : PetProduct} (hr : r ∈ db.pet_products)
    (hid : intToStr r.id = e.1) : r ∈ matchedRows db ks := by
  rw [mem_matchedRows]
  refine ⟨hr, ?_⟩
  have h1 : e.1 ∈ cart.map Prod.fst := List.mem_map_of_mem Prod.fst he
  rw [hmap] at h1
  exact mem_map_right_of_forall_eq rfl (hid ▸ h1)

lemma matchedRows_backward {db : Db} {cart : Cart} {ks : List Int}
    (hmap : cart.map Prod.fst = ks.map intToStr)
    {r : PetProduct} (hr : r ∈ matchedRows db ks) :
    r ∈ db.pet_products ∧ ∃ e ∈ cart, e.1 = intToStr r.id := by
  rw [mem_matchedRows] at hr
  refine ⟨hr.1, ?_⟩
  have h1 : intToStr r.id ∈ ks.map intToStr := List.mem_map_of_mem intToStr hr.2
  rw [← hmap] at h1
  obtain ⟨e, he, heq⟩ := List.mem_map.mp h1
  exact ⟨e, he, heq⟩

lemma any_id_eq_memB (db : Db) (k : Int) :
    db.pet_products.any (fun r => intToStr r.id == intToStr k)
      = memB k (db.pet_products.map PetProduct.id) := by
  have h : (db.pet_products.any (fun r => intToStr r.id == intToStr k) = true)
      ↔ (memB k (db.pet_products.map PetProduct.id) = true) := by
    simp only [List.any_eq_true, beq_iff_eq, memB, decide_eq_true_eq, List.mem_map]
    constructor
    · rintro ⟨r, hr, heq⟩
      exact ⟨r, hr, intToStr_injective heq⟩
    · rintro ⟨r, hr, heq⟩
      exact ⟨r, hr, by rw [heq]⟩
  cases ha : db.pet_products.any (fun r => intToStr r.id == intToStr k) <;>
    cases hb : memB k (db.pet_products.map PetProduct.id) <;> simp_all

lemma matchedRows_length {db : Db} {cart : Cart} {ks : List Int}
    (hmap : cart.map Prod.fst = ks.map intToStr)
    (hknd : (cart.map Prod.fst).Nodup)
    (hpnd : (db.pet_products.map PetProduct.id).Nodup) :
    (matchedRows db ks).length
      = cart.countP (fun e => db.pet_products.any (fun r => intToStr r.id == e.1)) := by
  have hksnd : ks.Nodup := ((hmap ▸ hknd : (ks.map intToStr).Nodup)).of_map intToStr
  have h1 : (matchedRows db ks).length
      = db.pet_products.countP (fun r => memB r.id ks) := by
    rw [matchedRows, List.countP_eq_length_filter]
  have h2 : db.pet_products.countP (fun r => memB r.id ks)
      = (db.pet_products.map PetProduct.id).countP (fun i => memB i ks) := by
    rw [List.countP_map]
    rfl
  have h3 : (db.pet_products.map PetProduct.id).countP (fun i => memB i ks)
      = ks.countP (fun k => memB k (db.pet_products.map PetProduct.id)) :=
    countP_mem_comm _ _ hpnd hksnd
  have h4 : cart.countP (fun e => db.pet_products.any (fun r => intToStr r.id == e.1))
      = (cart.map Prod.fst).countP
          (fun s => db.pet_products.any (fun r => intToStr r.id == s)) := by
    rw [List.countP_map]
    rfl
  have h5 : (cart.map Prod.fst).countP
        (fun s => db.pet_products.any (fun r => intToStr r.id == s))
      = ks.countP (fun k => db.pet_products.any (fun r => intToStr r.id == intToStr k)) := by
    rw [hmap, List.countP_map]
    rfl
  have h6 : ks.countP (fun k => db.pet_products.any (fun r => intToStr r.id == intToStr k))
      = ks.countP (fun k => memB k (db.pet_products.map PetProduct.id)) :=
    countP_congr_eq ks (fun k _ => any_id_eq_memB db k)
  rw [h1, h2, h3, h4, h5, h6]

/-- Summing `quantity × price_each` over the order items built from the
checkout lines recovers the loop's total. -/
lemma items_sum_eq_rowsTotal (cart : Cart) (rows : List PetProduct) (oid : Nat) :
    (((checkoutLines cart rows).map
        (fun p => (⟨oid, p.name, p.quantity, p.price⟩ : PetOrderItem))).map
      (fun it => (it.quantity : Rat) * it.price_each)).sum
      = rowsTotal cart rows := by
  rw [checkoutLines, rowsTotal, List.map_map, List.map_map]
  rfl

/-- The `signup` view on a POST, with the branch conditions exposed. -/
lemma signup_post_eq (db : Db) (genHash : Str → Str) (nF eF pF now : Str) :
    signup db genHash true nF eF pF now =
      (if is_strong_password (pyStrip pF) = false then
        (.redirectSignup errWeakPassword, db)
      else if pyStrip nF = [] ∨ pyLower (pyStrip eF) = [] ∨ pyStrip pF = [] then
        (.renderForm (some errAllFieldsRequired), db)
      else if db.users.any (fun u => u.email == pyLower (pyStrip eF)) then
        (.renderForm (some errEmailExists), db)
      else
        (.redirectLogin,
         { db with
             users := db.users ++
               [⟨db.next_user_id, pyStrip nF, pyLower (pyStrip eF),
                 genHash (pyStrip pF), now⟩],
             next_user_id := db.next_user_id + 1 })) := rfl

/-- The `bike_detail` view on a POST with the bike found, nonempty fields
and both dates parsed: only the day-span check remains. -/
lemma bike_detail_parsed
    (db : Db) (bike_id : Int) {bike : Bike}
    (hbike : db.bikes.find? (fun b => b.id == bike_id) = some bike)
    (nameF emailF phoneF startF endF now : Str)
    (hname : pyStrip nameF ≠ []) (hemail : pyStrip emailF ≠ [])
    (hphone : pyStrip phoneF ≠ [])
    (hstart : pyStrip startF ≠ []) (hend : pyStrip endF ≠ [])
    {sd ed : PyDate}
    (hsd : date_fromisoformat? (pyStrip startF) = some sd)
    (hed : date_fromisoformat? (pyStrip endF) = some ed) :
    bike_detail db bike_id true nameF emailF phoneF startF endF now =
      if (toOrdinal ed - toOrdinal sd) + 1 ≤ 0 then
        (.renderForm (some errEndBeforeStart), db)
      else
        (.successRedirect db.next_booking_id,
         { db with
             bike_bookings := db.bike_bookings ++
               [⟨db.next_booking_id, bike_id, pyStrip nameF, pyStrip emailF, pyStrip phoneF,
                 pyStrip startF, pyStrip endF,
                 (((toOrdinal ed - toOrdinal sd) + 1 : Int) : Rat) * bike.price_per_day, now⟩],
             next_booking_id := db.next_booking_id + 1 }) := by
  unfold bike_detail
  cases hfind : db.bikes.find? (fun b => b.id == bike_id) with
  | none => rw [hbike] at hfind; exact Option.noConfusion hfind
  | some bike' =>
    rw [hfind] at hbike
    injection hbike with hb'
    subst hb'
    dsimp only
    rw [if_pos (show (true = true) from rfl),
      if_neg (by simp [hname, hemail, hphone, hstart, hend]), hsd, hed]

/-!
## Claim theorems
-/

/-- C5: for every password string `p`, `is_strong_password p` holds iff `p`
has length at least 8 and contains an uppercase letter, a digit, and a
character outside `[A-Za-z0-9]`. -/
theorem is_strong_password_spec (p : Str) :
    is_strong_password p = true ↔
      8 ≤ p.length ∧ (∃ c ∈ p, isUpperChar c = true) ∧
        (∃ c ∈ p, isDigitCharB c = true) ∧ (∃ c ∈ p, isAsciiAlnum c = false) := by
  rw [is_strong_password]
  by_cases h1 : p.length < 8
  · rw [if_pos h1]
    constructor
    · intro h; exact absurd h (by simp)
    · rintro ⟨h8, -⟩; omega
  rw [if_neg h1]
  by_cases h2 : p.any isUpperChar = true
  case neg =>
    have h2' : p.any isUpperChar = false := by
      cases hb : p.any isUpperChar
      · rfl
      · exact absurd hb h2
    rw [if_pos (by rw [h2']; rfl)]
    constructor
    · intro h; exact absurd h (by simp)
    · rintro ⟨-, ⟨c, hc, hcu⟩, -, -⟩
      have hall := List.any_eq_false.mp h2' c hc
      simp [hcu] at hall
  rw [if_neg (by rw [h2]; simp)]
  by_cases h3 : p.any isDigitCharB = true
  case neg =>
    have h3' : p.any isDigitCharB = false := by
      cases hb : p.any isDigitCharB
      · rfl
      · exact absurd hb h3
    rw [if_pos (by rw [h3']; rfl)]
    constructor
    · intro h; exact absurd h (by simp)
    · rintro ⟨-, -, ⟨c, hc, hcd⟩, -⟩
      have hall := List.any_eq_false.mp h3' c hc
      simp [hcd] at hall
  rw [if_neg (by rw [h3]; simp)]
  by_cases h4 : p.any (fun c => !(isAsciiAlnum c)) = true
  case neg =>
    have h4' : p.any (fun c => !(isAsciiAlnum c)) = false := by
      cases hb : p.any (fun c => !(isAsciiAlnum c))
      · rfl
      · exact absurd hb h4
    rw [if_pos (by rw [h4']; rfl)]
    constructor
    · intro h; exact absurd h (by simp)
    · rintro ⟨-, -, -, ⟨c, hc, hcf⟩⟩
      have hall := List.any_eq_false.mp h4' c hc
      simp [hcf] at hall
  rw [if_neg (by rw [h4]; simp)]
  constructor
  · intro _
    refine ⟨by omega, List.any_eq_true.mp h2, List.any_eq_true.mp h3, ?_⟩
    obtain ⟨c, hc, hcb⟩ := List.any_eq_true.mp h4
    refine ⟨c, hc, ?_⟩
    cases hA : isAsciiAlnum c
    · rfl
    · rw [hA] at hcb
      exact absurd hcb (by simp)
  · intro _
    rfl

/-- C7: a checkout request with an empty cart redirects straight back to the
pet catalog with a message, before any validation or persistence; no order
or item row is created and the database is untouched. -/
theorem checkout_empty_cart_redirect
    (db : Db) (cart : Cart) (isPost : Bool) (nameF emailF phoneF now : Str)
    (persistOk emailOk : Bool) (hcart : cart = []) :
    pet_checkout db cart isPost nameF emailF phoneF now persistOk emailOk
      = ⟨.emptyCartRedirect, db, cart, false⟩ := by
  subst hcart
  rw [pet_checkout_eq, if_pos rfl]

/-- Witness for C7 at a concrete empty cart. -/
theorem checkout_empty_cart_redirect_witness :
    pet_checkout dbPets [] true ("Sam".data) ("sam@example.com".data) ("99".data)
      [] true true = ⟨.emptyCartRedirect, dbPets, [], false⟩ :=
  checkout_empty_cart_redirect dbPets [] true ("Sam".data) ("sam@example.com".data)
    ("99".data) [] true true rfl

/-- C3: every checkout run is atomic — either the database and cart are
unchanged and the request did not succeed (validation failure, GET render,
bad cart key, or a persistence failure rolled back by the transaction), or
the order row and all of its item rows were appended together and only then
was the cart cleared. -/
theorem pet_checkout_atomic
    (db : Db) (cart : Cart) (isPost : Bool) (nameF emailF phoneF now : Str)
    (persistOk emailOk : Bool) :
    CheckoutAtomic db cart
      (pet_checkout db cart isPost nameF emailF phoneF now persistOk emailOk) := by
  unfold CheckoutAtomic
  by_cases hc : cart = []
  · rw [pet_checkout_eq, if_pos hc]
    exact Or.inl ⟨rfl, rfl, fun oid h => CheckoutResult.noConfusion h⟩
  cases hm : pyMapInt (cart.map Prod.fst) with
  | none =>
    rw [pet_checkout_eq_none hm hc]
    exact Or.inl ⟨rfl, rfl, fun oid h => CheckoutResult.noConfusion h⟩
  | some ids =>
    rw [pet_checkout_eq_some hm hc]
    by_cases hp : isPost = true
    · rw [if_pos hp]
      by_cases hf : pyStrip nameF = [] ∨ pyStrip emailF = [] ∨ pyStrip phoneF = []
      · rw [if_pos hf]
        exact Or.inl ⟨rfl, rfl, fun oid h => CheckoutResult.noConfusion h⟩
      rw [if_neg hf]
      by_cases hpk : persistOk = true
      · rw [if_pos hpk]
        refine Or.inr ⟨db.next_order_id, _, _, rfl, rfl, rfl, rfl, ?_, rfl⟩
        intro it hit
        obtain ⟨q, hq, rfl⟩ := List.mem_map.mp hit
        rfl
      · rw [if_neg hpk]
        exact Or.inl ⟨rfl, rfl, fun oid h => CheckoutResult.noConfusion h⟩
    · rw [if_neg hp]
      exact Or.inl ⟨rfl, rfl, fun oid h => CheckoutResult.noConfusion h⟩

/-- C4 (evidence for the intended behavior): on the evidently intended
reading of the mis-indented strength check in `signup`, a POST whose
password fails the policy is rejected with the flashed message and no user
row is created.  The shipped source cannot exhibit this (or any) behavior:
the mis-indentation at `src/app.py` lines 275-279 is an `IndentationError`,
so the module fails to import. -/
theorem signup_weak_password_rejected :
    signup emptyDb (fun s => s) true ("Sam".data) ("sam@example.com".data)
      ("weakpass".data) [] = (.redirectSignup errWeakPassword, emptyDb) := by
  rfl

/-- C9: a failed login renders the same page with the same generic message
whether the email is unknown (run 1) or the password is wrong for an
existing user (run 2), and neither run binds a `user_id` into the session. -/
theorem login_failure_indistinguishable
    (db1 : Db) (check1 : Str → Str → Bool) (s1 : Option Nat) (e1 pw1 n1 : Str)
    (db2 : Db) (check2 : Str → Str → Bool) (s2 : Option Nat) (e2 pw2 n2 : Str)
    (h1 : db1.users.find? (fun u => u.email == pyLower (pyStrip e1)) = none)
    (u : User)
    (h2 : db2.users.find? (fun u => u.email == pyLower (pyStrip e2)) = some u)
    (h2c : check2 u.password_hash (pyStrip pw2) = false) :
    (login db1 check1 s1 true e1 pw1 n1).1 = (login db2 check2 s2 true e2 pw2 n2).1 ∧
    (login db1 check1 s1 true e1 pw1 n1).1 = .render (some errInvalidLogin) ∧
    (login db1 check1 s1 true e1 pw1 n1).2 = s1 ∧
    (login db2 check2 s2 true e2 pw2 n2).2 = s2 := by
  have l1 : login db1 check1 s1 true e1 pw1 n1 = (.render (some errInvalidLogin), s1) := by
    simp [login, h1]
  have l2 : login db2 check2 s2 true e2 pw2 n2 = (.render (some errInvalidLogin), s2) := by
    simp [login, h2, h2c]
  exact ⟨by rw [l1, l2], by rw [l1], by rw [l1], by rw [l2]⟩

/-- Witness for C9: an unknown email against an empty user table versus a
wrong password for the registered user, with a rejecting hash check. -/
theorem login_failure_indistinguishable_witness :
    (login emptyDb (fun _ _ => false) none true ("ghost@example.com".data)
        ("pw".data) []).1
      = (login dbUsers (fun _ _ => false) none true ("Ada@Example.COM".data)
          ("wrong".data) []).1 ∧
    (login emptyDb (fun _ _ => false) none true ("ghost@example.com".data)
        ("pw".data) []).1 = .render (some errInvalidLogin) ∧
    (login emptyDb (fun _ _ => false) none true ("ghost@example.com".data)
        ("pw".data) []).2 = none ∧
    (login dbUsers (fun _ _ => false) none true ("Ada@Example.COM".data)
        ("wrong".data) []).2 = none :=
  login_failure_indistinguishable emptyDb (fun _ _ => false) none
    ("ghost@example.com".data) ("pw".data) []
    dbUsers (fun _ _ => false) none ("Ada@Example.COM".data) ("wrong".data) []
    (by decide) userAda (by decide) rfl

/-- C10: viewing the booking confirmation page for an existing booking (with
its bike present, as the SQL join requires) attempts the receipt email anew
on that very request — once per page view, there is no sent-flag anywhere in
the data model — and any failure of the send, including missing email
configuration, is swallowed, so the success page is rendered regardless of
the notification outcome. -/
theorem booking_receipt_resent_each_view
    (db : Db) (booking_id : Nat) (bk : BikeBooking) (b : Bike)
    (hbk : db.bike_bookings.find? (fun r => r.id == booking_id) = some bk)
    (hb : db.bikes.find? (fun r => r.id == bk.bike_id) = some b)
    (env : EmailEnv) (smtpOk : Bool) :
    (bike_booking_success db booking_id env smtpOk).page = .renderSuccess bk b ∧
    (bike_booking_success db booking_id env smtpOk).attempts
      = [(bk.email, receiptSubject)] ∧
    ((strFalsy env.email_user || strFalsy env.email_password) = true →
      (bike_booking_success db booking_id env smtpOk).swallowedError
        = some errEmailEnvMissing) := by
  rw [bike_booking_success_found db booking_id env smtpOk hbk hb]
  cases hse : send_email env smtpOk bk.email receiptSubject with
  | ok v =>
    refine ⟨rfl, rfl, fun henv => ?_⟩
    unfold send_email at hse
    rw [if_pos henv] at hse
    exact Except.noConfusion hse
  | error e =>
    refine ⟨rfl, rfl, fun henv => ?_⟩
    unfold send_email at hse
    rw [if_pos henv] at hse
    injection hse with he
    rw [← he]

/-- Witness for C10: the persisted fixture booking, viewed with no email
configuration: the success page renders, one send is attempted, and the
`RuntimeError` is swallowed. -/
theorem booking_receipt_resent_each_view_witness :
    (bike_booking_success dbBooked 1 ⟨none, none⟩ false).page
      = .renderSuccess bookingFix bikeMT ∧
    (bike_booking_success dbBooked 1 ⟨none, none⟩ false).attempts
      = [(bookingFix.email, receiptSubject)] ∧
    ((strFalsy (EmailEnv.mk none none).email_user
        || strFalsy (EmailEnv.mk none none).email_password) = true →
      (bike_booking_success dbBooked 1 ⟨none, none⟩ false).swallowedError
        = some errEmailEnvMissing) :=
  booking_receipt_resent_each_view dbBooked 1 bookingFix bikeMT
    (by decide) (by decide) ⟨none, none⟩ false

/-- C6: after a successful registration, a second registration attempt whose
email lower-cases to the same address (any casing) fails with a validation
message — `errEmailExists` when the other checks pass, an earlier validation
message otherwise — and creates no user row; emails are lower-cased before
both storage and the duplicate lookup. -/
theorem signup_duplicate_email_rejected
    (db : Db) (genHash : Str → Str) (n1 e1 pw1 now1 n2 e2 pw2 now2 : Str)
    (h1 : (signup db genHash true n1 e1 pw1 now1).1 = .redirectLogin)
    (he : pyLower (pyStrip e2) = pyLower (pyStrip e1)) :
    (signup (signup db genHash true n1 e1 pw1 now1).2 genHash true n2 e2 pw2 now2).2
      = (signup db genHash true n1 e1 pw1 now1).2 ∧
    ∃ m, (signup (signup db genHash true n1 e1 pw1 now1).2 genHash true n2 e2 pw2 now2).1
          = .redirectSignup m ∨
        (signup (signup db genHash true n1 e1 pw1 now1).2 genHash true n2 e2 pw2 now2).1
          = .renderForm (some m) := by
  rw [signup_post_eq] at h1
  by_cases hs : is_strong_password (pyStrip pw1) = false
  · rw [if_pos hs] at h1
    exact absurd h1 (by simp)
  rw [if_neg hs] at h1
  by_cases hf : pyStrip n1 = [] ∨ pyLower (pyStrip e1) = [] ∨ pyStrip pw1 = []
  · rw [if_pos hf] at h1
    exact absurd h1 (by simp)
  rw [if_neg hf] at h1
  by_cases hd : db.users.any (fun u => u.email == pyLower (pyStrip e1)) = true
  · rw [if_pos hd] at h1
    exact absurd h1 (by simp)
  rw [if_neg hd] at h1
  have hdb1 : (signup db genHash true n1 e1 pw1 now1).2
      = { db with
            users := db.users ++
              [⟨db.next_user_id, pyStrip n1, pyLower (pyStrip e1),
                genHash (pyStrip pw1), now1⟩],
            next_user_id := db.next_user_id + 1 } := by
    rw [signup_post_eq, if_neg hs, if_neg hf, if_neg hd]
  rw [hdb1, signup_post_eq]
  by_cases hs2 : is_strong_password (pyStrip pw2) = false
  · rw [if_pos hs2]
    exact ⟨rfl, errWeakPassword, Or.inl rfl⟩
  rw [if_neg hs2]
  by_cases hf2 : pyStrip n2 = [] ∨ pyLower (pyStrip e2) = [] ∨ pyStrip pw2 = []
  · rw [if_pos hf2]
    exact ⟨rfl, errAllFieldsRequired, Or.inr rfl⟩
  rw [if_neg hf2]
  have hd2 : ({ db with
      users := db.users ++
        [⟨db.next_user_id, pyStrip n1, pyLower (pyStrip e1),
          genHash (pyStrip pw1), now1⟩],
      next_user_id := db.next_user_id + 1 } : Db).users.any
        (fun u => u.email == pyLower (pyStrip e2)) = true := by
    refine List.any_eq_true.mpr
      ⟨⟨db.next_user_id, pyStrip n1, pyLower (pyStrip e1), genHash (pyStrip pw1), now1⟩,
       ?_, ?_⟩
    · exact List.mem_append_right _ (by simp)
    · simp [he]
  rw [if_pos hd2]
  exact ⟨rfl, errEmailExists, Or.inr rfl⟩

/-- Witness for C6: register `Ada@Example.com`, then attempt
`ada@EXAMPLE.com` — the second run leaves the table unchanged and fails with
a validation message. -/
theorem signup_duplicate_email_rejected_witness :
    (signup (signup emptyDb (fun s => s) true ("Ada".data) ("Ada@Example.com".data)
        ("Passw0rd!".data) []).2 (fun s => s) true ("Bob".data)
        ("ada@EXAMPLE.com".data) ("Passw0rd!".data) []).2
      = (signup emptyDb (fun s => s) true ("Ada".data) ("Ada@Example.com".data)
          ("Passw0rd!".data) []).2 ∧
    ∃ m, (signup (signup emptyDb (fun s => s) true ("Ada".data) ("Ada@Example.com".data)
            ("Passw0rd!".data) []).2 (fun s => s) true ("Bob".data)
            ("ada@EXAMPLE.com".data) ("Passw0rd!".data) []).1
          = .redirectSignup m ∨
        (signup (signup emptyDb (fun s => s) true ("Ada".data) ("Ada@Example.com".data)
            ("Passw0rd!".data) []).2 (fun s => s) true ("Bob".data)
            ("ada@EXAMPLE.com".data) ("Passw0rd!".data) []).1
          = .renderForm (some m) :=
  signup_duplicate_email_rejected emptyDb (fun s => s) ("Ada".data)
    ("Ada@Example.com".data) ("Passw0rd!".data) [] ("Bob".data)
    ("ada@EXAMPLE.com".data) ("Passw0rd!".data) [] (by decide) (by decide)

/-- C2: on a booking POST with the bike found, all five fields nonempty and
both dates parsing as valid ISO dates, a booking row is created iff
`end_date ≥ start_date` (equivalently the inclusive day count is positive);
the created row's `total_price` is `price_per_day` times the inclusive day
count `end − start + 1`, and on a negative span the view re-renders with the
error message and the database is unchanged. -/
theorem booking_price_invariant
    (db : Db) (bike_id : Int) (nameF emailF phoneF startF endF now : Str)
    (bike : Bike) (hbike : db.bikes.find? (fun b => b.id == bike_id) = some bike)
    (hname : pyStrip nameF ≠ []) (hemail : pyStrip emailF ≠ [])
    (hphone : pyStrip phoneF ≠ [])
    (hstart : pyStrip startF ≠ []) (hend : pyStrip endF ≠ [])
    (sd ed : PyDate)
    (hsd : date_fromisoformat? (pyStrip startF) = some sd)
    (hed : date_fromisoformat? (pyStrip endF) = some ed) :
    (toOrdinal sd ≤ toOrdinal ed →
      bike_detail db bike_id true nameF emailF phoneF startF endF now =
        (.successRedirect db.next_booking_id,
         { db with
             bike_bookings := db.bike_bookings ++
               [⟨db.next_booking_id, bike_id, pyStrip nameF, pyStrip emailF,
                 pyStrip phoneF, pyStrip startF, pyStrip endF,
                 (((toOrdinal ed - toOrdinal sd) + 1 : Int) : Rat) * bike.price_per_day,
                 now⟩],
             next_booking_id := db.next_booking_id + 1 })) ∧
    (toOrdinal ed < toOrdinal sd →
      bike_detail db bike_id true nameF emailF phoneF startF endF now =
        (.renderForm (some errEndBeforeStart), db)) := by
  have hred := bike_detail_parsed db bike_id hbike nameF emailF phoneF startF endF now
    hname hemail hphone hstart hend hsd hed
  constructor
  · intro hle
    rw [hred, if_neg (by omega)]
  · intro hlt
    rw [hred, if_pos (by omega)]

/-- Witness for C2: the 900-per-day bike booked `2024-01-01` to `2024-01-03`
succeeds (3 inclusive days, so the stored total is `3 × 900 = 2700`), and
`2024-01-05` to `2024-01-01` fails validation with the database unchanged. -/
theorem booking_price_invariant_witness :
    (toOrdinal ⟨2024, 1, 1⟩ ≤ toOrdinal ⟨2024, 1, 3⟩ →
      bike_detail dbBikes 1 true ("Ada".data) ("ada@example.com".data) ("99".data)
          ("2024-01-01".data) ("2024-01-03".data) [] =
        (.successRedirect dbBikes.next_booking_id,
         { dbBikes with
             bike_bookings := dbBikes.bike_bookings ++
               [⟨dbBikes.next_booking_id, 1, pyStrip ("Ada".data),
                 pyStrip ("ada@example.com".data), pyStrip ("99".data),
                 pyStrip ("2024-01-01".data), pyStrip ("2024-01-03".data),
                 (((toOrdinal ⟨2024, 1, 3⟩ - toOrdinal ⟨2024, 1, 1⟩) + 1 : Int) : Rat)
                   * bikeMT.price_per_day, []⟩],
             next_booking_id := dbBikes.next_booking_id + 1 })) ∧
    (toOrdinal ⟨2024, 1, 1⟩ < toOrdinal ⟨2024, 1, 5⟩ →
      bike_detail dbBikes 1 true ("Ada".data) ("ada@example.com".data) ("99".data)
          ("2024-01-05".data) ("2024-01-01".data) [] =
        (.renderForm (some errEndBeforeStart), dbBikes)) ∧
    (toOrdinal ⟨2024, 1, 3⟩ - toOrdinal ⟨2024, 1, 1⟩) + 1 = (3 : Int) ∧
    ((3 : Int) : Rat) * bikeMT.price_per_day = 2700 :=
  ⟨(booking_price_invariant dbBikes 1 ("Ada".data) ("ada@example.com".data)
      ("99".data) ("2024-01-01".data) ("2024-01-03".data) [] bikeMT (by decide)
      (by decide) (by decide) (by decide) (by decide) (by decide)
      ⟨2024, 1, 1⟩ ⟨2024, 1, 3⟩ (by decide) (by decide)).1,
   (booking_price_invariant dbBikes 1 ("Ada".data) ("ada@example.com".data)
      ("99".data) ("2024-01-05".data) ("2024-01-01".data) [] bikeMT (by decide)
      (by decide) (by decide) (by decide) (by decide) (by decide)
      ⟨2024, 1, 5⟩ ⟨2024, 1, 1⟩ (by decide) (by decide)).2,
   by decide,
   by norm_num [bikeMT]⟩

lemma cartLines_subtotal_sum (cart : Cart) (rows : List PetProduct) :
    ((cartLines cart rows).map CartLine.subtotal).sum = rowsTotal cart rows := by
  rw [cartLines, rowsTotal, List.map_map]
  rfl

/-- C1: a checkout POST with a nonempty canonical cart, distinct catalog
ids and nonempty contact fields creates exactly one order row whose
`total_amount` is the sum of `quantity × price_each` over exactly the item
rows appended with it; there is one item per cart entry whose product exists
in the catalog (both inclusions plus the count), and the cart is empty
immediately afterwards. -/
theorem checkout_total_invariant
    (db : Db) (cart : Cart) (nameF emailF phoneF now : Str) (emailOk : Bool)
    (hcart : cart ≠ [])
    (hkeys : ∀ e ∈ cart, ∃ k : Int, e.1 = intToStr k)
    (hknd : (cart.map Prod.fst).Nodup)
    (hpnd : (db.pet_products.map PetProduct.id).Nodup)
    (hname : pyStrip nameF ≠ []) (hemail : pyStrip emailF ≠ [])
    (hphone : pyStrip phoneF ≠ []) :
    ∃ (oid : Nat) (items : List PetOrderItem),
      pet_checkout db cart true nameF emailF phoneF now true emailOk =
        ⟨.success oid,
         { db with
             pet_orders := db.pet_orders ++
               [⟨oid, pyStrip nameF, pyStrip emailF, pyStrip phoneF,
                 (items.map (fun it => (it.quantity : Rat) * it.price_each)).sum, now⟩],
             pet_order_items := db.pet_order_items ++ items,
             next_order_id := oid + 1 },
         [], true⟩ ∧
      (∀ it ∈ items, it.order_id = oid) ∧
      (∀ e ∈ cart, ∀ r ∈ db.pet_products, intToStr r.id = e.1 →
        (⟨oid, r.name, e.2, r.price⟩ : PetOrderItem) ∈ items) ∧
      (∀ it ∈ items, ∃ e ∈ cart, ∃ r ∈ db.pet_products,
        intToStr r.id = e.1 ∧ it = ⟨oid, r.name, e.2, r.price⟩) ∧
      items.length
        = cart.countP (fun e => db.pet_products.any (fun r => intToStr r.id == e.1)) := by
  obtain ⟨ks, hks, hmap⟩ := pyMapInt_canonical (cart.map Prod.fst)
    (fun s hs => by obtain ⟨e, he, rfl⟩ := List.mem_map.mp hs; exact hkeys e he)
  refine ⟨db.next_order_id,
    (checkoutLines cart (matchedRows db ks)).map
      (fun p => (⟨db.next_order_id, p.name, p.quantity, p.price⟩ : PetOrderItem)),
    ?_, ?_, ?_, ?_, ?_⟩
  · rw [pet_checkout_eq_some hks hcart true nameF emailF phoneF now true emailOk,
      if_pos (show (true = true) from rfl),
      if_neg (by simp [hname, hemail, hphone]),
      if_pos (show (true = true) from rfl),
      items_sum_eq_rowsTotal]
  · intro it hit
    obtain ⟨p, hp, rfl⟩ := List.mem_map.mp hit
    rfl
  · intro e he r hr hid
    have hq : cartGet cart e.1 = e.2 := cartGet_eq_of_mem cart e he hknd
    have hrow : r ∈ matchedRows db ks := matchedRows_forward hmap he hr hid
    have hline : (⟨r.id, r.name, cartGet cart (intToStr r.id), r.price⟩ : CheckoutLine)
        ∈ checkoutLines cart (matchedRows db ks) := by
      rw [checkoutLines]
      exact List.mem_map_of_mem _ hrow
    have hmem := List.mem_map_of_mem
      (fun p => (⟨db.next_order_id, p.name, p.quantity, p.price⟩ : PetOrderItem)) hline
    rw [hid, hq] at hmem
    exact hmem
  · intro it hit
    obtain ⟨p, hp, rfl⟩ := List.mem_map.mp hit
    rw [checkoutLines] at hp
    obtain ⟨r, hr, rfl⟩ := List.mem_map.mp hp
    obtain ⟨hrdb, e, he, he1⟩ := matchedRows_backward hmap hr
    have hq : cartGet cart e.1 = e.2 := cartGet_eq_of_mem cart e he hknd
    refine ⟨e, he, r, hrdb, he1.symm, ?_⟩
    rw [← he1, hq]
  · have hlen : ((checkoutLines cart (matchedRows db ks)).map
        (fun p => (⟨db.next_order_id, p.name, p.quantity, p.price⟩ : PetOrderItem))).length
        = (matchedRows db ks).length := by
      rw [List.length_map, checkoutLines, List.length_map]
    rw [hlen, matchedRows_length hmap hknd hpnd]

/-- Witness for C1: the cart `{1 ↦ 2, 2 ↦ 1}` against the catalog priced
`100` and `50` — one order with total 250, exactly the items `(2 × 100)` and
`(1 × 50)`, and an empty cart afterwards. -/
theorem checkout_total_invariant_witness :
    (∃ (oid : Nat) (items : List PetOrderItem),
      pet_checkout dbPets cartPets true ("Sam".data) ("sam@example.com".data)
          ("99".data) [] true true =
        ⟨.success oid,
         { dbPets with
             pet_orders := dbPets.pet_orders ++
               [⟨oid, pyStrip ("Sam".data), pyStrip ("sam@example.com".data),
                 pyStrip ("99".data),
                 (items.map (fun it => (it.quantity : Rat) * it.price_each)).sum, []⟩],
             pet_order_items := dbPets.pet_order_items ++ items,
             next_order_id := oid + 1 },
         [], true⟩ ∧
      (∀ it ∈ items, it.order_id = oid) ∧
      (∀ e ∈ cartPets, ∀ r ∈ dbPets.pet_products, intToStr r.id = e.1 →
        (⟨oid, r.name, e.2, r.price⟩ : PetOrderItem) ∈ items) ∧
      (∀ it ∈ items, ∃ e ∈ cartPets, ∃ r ∈ dbPets.pet_products,
        intToStr r.id = e.1 ∧ it = ⟨oid, r.name, e.2, r.price⟩) ∧
      items.length = cartPets.countP
        (fun e => dbPets.pet_products.any (fun r => intToStr r.id == e.1))) ∧
    (pet_checkout dbPets cartPets true ("Sam".data) ("sam@example.com".data)
        ("99".data) [] true true).db.pet_orders
      = [⟨1, pyStrip ("Sam".data), pyStrip ("sam@example.com".data),
          pyStrip ("99".data), 250, []⟩] ∧
    (pet_checkout dbPets cartPets true ("Sam".data) ("sam@example.com".data)
        ("99".data) [] true true).db.pet_order_items
      = [⟨1, prodFood.name, 2, 100⟩, ⟨1, prodBowl.name, 1, 50⟩] ∧
    (pet_checkout dbPets cartPets true ("Sam".data) ("sam@example.com".data)
        ("99".data) [] true true).cart = [] := by
  have h250 : rowsTotal cartPets (matchedRows dbPets [1, 2]) = 250 := by
    have h1 : matchedRows dbPets [1, 2] = [prodFood, prodBowl] := by decide
    have h2 : cartGet cartPets (intToStr prodFood.id) = 2 := by decide
    have h3 : cartGet cartPets (intToStr prodBowl.id) = 1 := by decide
    rw [rowsTotal, h1, List.map_cons, List.map_cons, List.map_nil,
      List.sum_cons, List.sum_cons, List.sum_nil, h2, h3]
    norm_num [prodFood, prodBowl]
  have hitems : (checkoutLines cartPets (matchedRows dbPets [1, 2])).map
      (fun p => (⟨1, p.name, p.quantity, p.price⟩ : PetOrderItem))
      = [⟨1, prodFood.name, 2, 100⟩, ⟨1, prodBowl.name, 1, 50⟩] := by decide
  have heq := @pet_checkout_eq_some dbPets cartPets [1, 2] (by decide) (by decide)
    true ("Sam".data) ("sam@example.com".data) ("99".data) [] true true
  rw [if_pos (show (true = true) from rfl), if_neg (by decide),
    if_pos (show (true = true) from rfl)] at heq
  refine ⟨checkout_total_invariant dbPets cartPets ("Sam".data)
      ("sam@example.com".data) ("99".data) [] true (by decide)
      (fun e he => by
        simp only [cartPets, List.mem_cons, List.not_mem_nil, or_false] at he
        rcases he with rfl | rfl
        · exact ⟨1, by decide⟩
        · exact ⟨2, by decide⟩)
      (by decide) (by decide) (by decide) (by decide) (by decide), ?_, ?_, ?_⟩
  · rw [heq]
    show [] ++ [(⟨1, pyStrip ("Sam".data), pyStrip ("sam@example.com".data),
      pyStrip ("99".data), rowsTotal cartPets (matchedRows dbPets [1, 2]), []⟩ :
        PetOrder)] = _
    rw [h250, List.nil_append]
  · rw [heq]
    show [] ++ (checkoutLines cartPets (matchedRows dbPets [1, 2])).map
      (fun p => (⟨1, p.name, p.quantity, p.price⟩ : PetOrderItem)) = _
    rw [hitems, List.nil_append]
  · rw [heq]

/-- C8: materialising the cart joins its entries against the catalog: with a
canonical nonempty cart, the view exists and its total is the sum of the
line subtotals, each subtotal is `quantity × price`, there is one line per
cart entry whose product exists (both inclusions plus the count — entries
whose product is gone are silently dropped and contribute nothing), and the
catalog query is issued; an empty cart yields the empty view with total `0`
without querying. -/
theorem cart_materialize_spec
    (db : Db) (cart : Cart)
    (hkeys : ∀ e ∈ cart, ∃ k : Int, e.1 = intToStr k)
    (hknd : (cart.map Prod.fst).Nodup)
    (hpnd : (db.pet_products.map PetProduct.id).Nodup) :
    (cart = [] → pet_cart db cart = some ⟨[], 0, false⟩) ∧
    ∃ v : PetCartView, pet_cart db cart = some v ∧
      v.total_amount = (v.products.map CartLine.subtotal).sum ∧
      (∀ l ∈ v.products, l.subtotal = (l.quantity : Rat) * l.price) ∧
      (∀ e ∈ cart, ∀ r ∈ db.pet_products, intToStr r.id = e.1 →
        (⟨r.id, r.name, r.category, r.price, e.2, (e.2 : Rat) * r.price⟩ : CartLine)
          ∈ v.products) ∧
      (∀ l ∈ v.products, ∃ e ∈ cart, ∃ r ∈ db.pet_products,
        intToStr r.id = e.1 ∧
        l = ⟨r.id, r.name, r.category, r.price, e.2, (e.2 : Rat) * r.price⟩) ∧
      v.products.length
        = cart.countP (fun e => db.pet_products.any (fun r => intToStr r.id == e.1)) ∧
      (cart = [] → v.queried = false) ∧ (cart ≠ [] → v.queried = true) := by
  obtain ⟨ks, hks, hmap⟩ := pyMapInt_canonical (cart.map Prod.fst)
    (fun s hs => by obtain ⟨e, he, rfl⟩ := List.mem_map.mp hs; exact hkeys e he)
  by_cases hc : cart = []
  · subst hc
    have hks0 : ks = [] := by
      cases ks with
      | nil => rfl
      | cons a t => exact absurd hmap (by simp)
    subst hks0
    have hv : pet_cart db [] = some ⟨[], 0, false⟩ := by
      rw [pet_cart_eq_some hks, if_pos rfl]
    refine ⟨fun _ => hv, ⟨[], 0, false⟩, hv, by simp, ?_, ?_, ?_, by simp,
      fun _ => rfl, fun hne => absurd rfl hne⟩
    · intro l hl
      exact absurd hl (List.not_mem_nil l)
    · intro e he
      exact absurd he (List.not_mem_nil e)
    · intro l hl
      exact absurd hl (List.not_mem_nil l)
  · have hksne : ks ≠ [] := by
      intro h0
      rw [h0] at hmap
      simp only [List.map_nil] at hmap
      exact hc (by simpa using hmap)
    refine ⟨fun h => absurd h hc,
      ⟨cartLines cart (matchedRows db ks), rowsTotal cart (matchedRows db ks), true⟩,
      ?_, ?_, ?_, ?_, ?_, ?_, fun h => absurd h hc, fun _ => rfl⟩
    · rw [pet_cart_eq_some hks, if_neg hksne]
    · exact (cartLines_subtotal_sum cart (matchedRows db ks)).symm
    · intro l hl
      rw [cartLines] at hl
      obtain ⟨r, hr, rfl⟩ := List.mem_map.mp hl
      rfl
    · intro e he r hr hid
      have hq : cartGet cart e.1 = e.2 := cartGet_eq_of_mem cart e he hknd
      have hrow : r ∈ matchedRows db ks := matchedRows_forward hmap he hr hid
      have hline : (⟨r.id, r.name, r.category, r.price, cartGet cart (intToStr r.id),
          (cartGet cart (intToStr r.id) : Rat) * r.price⟩ : CartLine)
          ∈ cartLines cart (matchedRows db ks) := by
        rw [cartLines]
        exact List.mem_map_of_mem _ hrow
      rw [hid, hq] at hline
      exact hline
    · intro l hl
      rw [cartLines] at hl
      obtain ⟨r, hr, rfl⟩ := List.mem_map.mp hl
      obtain ⟨hrdb, e, he, he1⟩ := matchedRows_backward hmap hr
      have hq : cartGet cart e.1 = e.2 := cartGet_eq_of_mem cart e he hknd
      refine ⟨e, he, r, hrdb, he1.symm, ?_⟩
      rw [← he1, hq]
    · have hlen : (cartLines cart (matchedRows db ks)).length
          = (matchedRows db ks).length := by
        rw [cartLines, List.length_map]
      show (cartLines cart (matchedRows db ks)).length = _
      rw [hlen, matchedRows_length hmap hknd hpnd]

/-- Witness for C8: a cart holding product 1 twice plus a stale key `99`
joins to the single line `(2 × 100)` with total 200 (the stale entry is
dropped silently), and the empty cart yields the empty view without
querying. -/
theorem cart_materialize_spec_witness :
    (∃ v : PetCartView, pet_cart dbPets [("1".data, 2), ("99".data, 5)] = some v ∧
      v.total_amount = (v.products.map CartLine.subtotal).sum ∧
      (∀ l ∈ v.products, l.subtotal = (l.quantity : Rat) * l.price) ∧
      (∀ e ∈ [(("1".data : Str), 2), (("99".data : Str), 5)],
        ∀ r ∈ dbPets.pet_products, intToStr r.id = e.1 →
        (⟨r.id, r.name, r.category, r.price, e.2, (e.2 : Rat) * r.price⟩ : CartLine)
          ∈ v.products) ∧
      (∀ l ∈ v.products, ∃ e ∈ [(("1".data : Str), 2), (("99".data : Str), 5)],
        ∃ r ∈ dbPets.pet_products, intToStr r.id = e.1 ∧
        l = ⟨r.id, r.name, r.category, r.price, e.2, (e.2 : Rat) * r.price⟩) ∧
      v.products.length = List.countP
        (fun e => dbPets.pet_products.any (fun r => intToStr r.id == e.1))
        [(("1".data : Str), 2), (("99".data : Str), 5)] ∧
      ([(("1".data : Str), 2), (("99".data : Str), 5)] = ([] : Cart) →
        v.queried = false) ∧
      ([(("1".data : Str), 2), (("99".data : Str), 5)] ≠ ([] : Cart) →
        v.queried = true)) ∧
    pet_cart dbPets [] = some ⟨[], 0, false⟩ ∧
    (pet_cart dbPets [("1".data, 2), ("99".data, 5)]).map PetCartView.products
      = some [⟨1, prodFood.name, prodFood.category, 100, 2, (2 : Rat) * 100⟩] := by
  have hmain := cart_materialize_spec dbPets [("1".data, 2), ("99".data, 5)]
    (fun e he => by
      simp only [List.mem_cons, List.not_mem_nil, or_false] at he
      rcases he with rfl | rfl
      · exact ⟨1, by decide⟩
      · exact ⟨99, by decide⟩)
    (by decide) (by decide)
  have hempty := cart_materialize_spec dbPets []
    (fun e he => absurd he (List.not_mem_nil e)) (by decide) (by decide)
  refine ⟨hmain.2, hempty.1 rfl, ?_⟩
  have hrows : matchedRows dbPets [1, 99] = [prodFood] := by decide
  have heq := @pet_cart_eq_some dbPets
    [(("1".data : Str), 2), (("99".data : Str), 5)] [1, 99] (by decide)
  rw [if_neg (by decide)] at heq
  rw [heq]
  show some ((cartLines [("1".data, 2), ("99".data, 5)] (matchedRows dbPets [1, 99])))
    = some [⟨1, prodFood.name, prodFood.category, 100, 2, (2 : Rat) * 100⟩]
  rw [hrows, cartLines, List.map_cons, List.map_nil]
  have hget : cartGet [("1".data, 2), ("99".data, 5)] (intToStr prodFood.id) = 2 := by
    decide
  rw [hget]
  rfl

end PortfolioApp
